import Mathlib

/-!
Shallow embedding of the ontology-framework RDF engine core and proofs about it.

The repository contains two Rust engine variants exposing the same interface:

* `src/tools/src/lib.rs` — a hand-rolled engine (namespace `HandRolled` below):
  a plain vector of string triples, a line-oriented best-effort parser in
  `execute_update`, a fixed query in `execute_query`, and a store-based check
  in `execute_validation`.
* `src/tools/bfg9k_rdf_engine.rs` — an engine delegating parsing and storage
  to the oxigraph library (namespace BFG9K below); only the validation rule
  logic and the call sequencing live in this repository.

Rust methods taking `&self` cannot mutate the engine; the embedding mirrors
this by threading the engine state through and returning it unchanged, so
frame properties are statable. Methods returning `Result<T, JsError>` are
embedded as `Except JsErr T`; the only fallible step of the hand-rolled
methods is the host serialization boundary, which is out of scope, so those
embeddings always return `.ok`, exactly as the Rust bodies do before
serialization.
-/

deriving instance DecidableEq for Except

namespace StrOps

/-!
Executable renderings of the Rust string primitives used by the engines
(`str::lines`, `str::trim`, `str::split_whitespace`, `str::starts_with`,
`str::ends_with`), written by structural recursion over the character list so
the kernel can evaluate them on concrete inputs.
-/

/-- Split a character list at every character satisfying `p`; separators are
dropped and empty pieces are kept, as with Rust `split`. -/
def split_chars (p : Char → Bool) : List Char → List (List Char)
  | [] => [[]]
  | c :: cs =>
    if p c then [] :: split_chars p cs
    else
      match split_chars p cs with
      | [] => [[c]]
      | w :: ws => (c :: w) :: ws

/-- `str::lines`: split on the newline character. A final carriage return or
empty piece is handled by the callers, which trim each line. -/
def lines (s : String) : List String :=
  (split_chars (fun c => c = '\n') s.data).map String.mk

/-- `str::trim`: drop whitespace from both ends. -/
def trim (s : String) : String :=
  ⟨((s.data.dropWhile Char.isWhitespace).reverse.dropWhile
      Char.isWhitespace).reverse⟩

/-- `str::split_whitespace`: split on whitespace runs, yielding no empty
tokens. -/
def split_ws (s : String) : List String :=
  ((split_chars Char.isWhitespace s.data).filter (fun w => w ≠ [])).map
    String.mk

/-- `str::starts_with` for a string pattern. -/
def starts_with (s t : String) : Bool := t.data.isPrefixOf s.data

/-- `str::ends_with` for a string pattern. -/
def ends_with (s t : String) : Bool := t.data.isSuffixOf s.data

end StrOps

namespace HandRolled

open StrOps

/-- Error type standing for `JsError` at the host boundary. -/
structure JsErr where
  msg : String
deriving DecidableEq, Repr

/-- `struct Triple` from src/tools/src/lib.rs lines 5-10: three owned strings. -/
structure Triple where
  subject : String
  predicate : String
  object : String
deriving DecidableEq, Repr

/-- `struct RDFEngine` from src/tools/src/lib.rs lines 12-15: a vector of triples. -/
structure RDFEngine where
  triples : List Triple
deriving DecidableEq, Repr

/-- `RDFEngine::new` (lib.rs lines 19-24): empty store. -/
def RDFEngine.new : RDFEngine := ⟨[]⟩

/-- The hardcoded predicate filtered on by `execute_query` (lib.rs line 28). -/
def rdf_type_iri : String := "http://www.w3.org/1999/02/22-rdf-syntax-ns#type"

/-- The object IRI checked by `execute_validation` (lib.rs line 66). -/
def owl_class_iri : String := "http://www.w3.org/2002/07/owl#Class"

/-- One result row of `execute_query` (lib.rs lines 29-34): a map with exactly
the keys "subject" and "object", embedded as a two-field record. -/
structure QueryRow where
  subject : String
  object : String
deriving DecidableEq, Repr

/-- `RDFEngine::execute_query` (lib.rs lines 26-38): filters the stored triples
on the hardcoded rdf:type predicate and projects subject and object. The
`query` argument is read but never used by the body, exactly as in the source.
The state is returned unchanged, mirroring the `&self` receiver. -/
def RDFEngine.execute_query (e : RDFEngine) (query : String) :
    Except JsErr (List QueryRow) × RDFEngine :=
  (.ok ((e.triples.filter (fun t => t.predicate == rdf_type_iri)).map
    (fun t => ⟨t.subject, t.object⟩)), e)

/-- The per-line step of `RDFEngine::execute_update` (lib.rs lines 42-56):
trim; skip empty lines and lines starting with `#`; a line with at least three
whitespace-separated tokens yields a triple of its first three tokens; any
other line yields nothing. -/
def parse_line (raw : String) : Option Triple :=
  let line := trim raw
  if line == "" || starts_with line "#" then none
  else
    match split_ws line with
    | s :: p :: o :: _ => some ⟨s, p, o⟩
    | _ => none

/-- `RDFEngine::execute_update` (lib.rs lines 40-58): iterate over the lines of
the input, push each parsed triple onto the store, and return `Ok(true)`.
The trailing empty piece our `lines` yields for a trailing newline is
discarded by `parse_line`, matching `str::lines`, and any carriage return is
removed by `trim`. -/
def RDFEngine.execute_update (e : RDFEngine) (ttl : String) :
    Except JsErr Bool × RDFEngine :=
  (.ok true,
   ⟨(lines ttl).foldl
      (fun acc x =>
        match parse_line x with
        | some t => acc ++ [t]
        | none => acc)
      e.triples⟩)

/-- `RDFEngine::execute_validation` (lib.rs lines 60-74): the `ttl` argument is
ignored by the body; the class-definition check runs over `self.triples`, the
persistent store. The single possible diagnostic is pushed when no stored
triple has the rdf:type predicate IRI and the owl:Class object IRI. -/
def RDFEngine.execute_validation (e : RDFEngine) (ttl : String) :
    Except JsErr (List String) × RDFEngine :=
  let has_classes := e.triples.any
    (fun t => t.predicate == rdf_type_iri && t.object == owl_class_iri)
  let validation_results : List String :=
    if has_classes then [] else ["No owl:Class definitions found"]
  (.ok validation_results, e)

/-- Generalization of the inline predicate filter of `execute_query`
(lib.rs lines 27-28), which instantiates it at `rdf_type_iri`: the stored
triples whose predicate equals `p`, in store order. -/
def by_predicate (e : RDFEngine) (p : String) : List Triple :=
  e.triples.filter (fun t => t.predicate == p)

end HandRolled

namespace BFG9K

/-- Graph terms as used by src/tools/bfg9k_rdf_engine.rs through the oxigraph
model: a named node (IRI), a blank node, or a literal. `as_named` is `some`
exactly on named nodes, mirroring `Term::as_named`. -/
inductive GTerm where
  | named (iri : String)
  | blank (id : String)
  | lit (value : String)
deriving DecidableEq, Repr

/-- `Term::as_named` as used at bfg9k_rdf_engine.rs lines 72, 84-85. -/
def GTerm.as_named : GTerm → Option String
  | .named iri => some iri
  | _ => none

/-- `Display` rendering of a term, used by the `format!` calls at
bfg9k_rdf_engine.rs lines 74-77: named nodes in angle brackets, blank nodes
with the `_:` marker, literals quoted. -/
def GTerm.render : GTerm → String
  | .named iri => "<" ++ iri ++ ">"
  | .blank id => "_:" ++ id
  | .lit value => "\"" ++ value ++ "\""

/-- A triple of the transient `Graph` built in `execute_update` and
`execute_validation` (bfg9k_rdf_engine.rs lines 50, 62). -/
structure GTriple where
  subject : GTerm
  predicate : GTerm
  object : GTerm
deriving DecidableEq, Repr

/-- A parsed transient graph: the ordered triples yielded by `graph.iter()`. -/
abbrev Graph := List GTriple

/-- The persistent oxigraph `Store` owned by the engine
(bfg9k_rdf_engine.rs lines 9-11). -/
structure Store where
  triples : List GTriple
deriving DecidableEq, Repr

/-- Modelled from the spec: `Store::insert` is implemented by the oxigraph
dependency, not by this repository. Per §3 (the store is duplicate-free) and
§4.2 (`insert` appends if not structurally present), insertion is a no-op on a
structurally present triple and appends otherwise. -/
def Store.insert (s : Store) (t : GTriple) : Store :=
  if t ∈ s.triples then s else ⟨s.triples ++ [t]⟩

/-- Modelled from the spec: the Turtle parsing step
`graph.read_from(cursor, GraphFormat::Turtle)` used at
bfg9k_rdf_engine.rs lines 50-52 and 62-64 is implemented by the oxigraph
dependency, not by this repository. Following §4.1 and §7: prefix
declarations are statements terminated by a dot, and an unterminated prefix
block is a fatal condition (`ParseFatal`) that aborts the whole parse; other
statements are handled best-effort, a line with at least three tokens
yielding one triple and any other line yielding nothing. -/
def graph_read_turtle (ttl : String) : Except String Graph :=
  (StrOps.lines ttl).foldl
    (fun acc raw =>
      match acc with
      | .error e => .error e
      | .ok g =>
        let line := StrOps.trim raw
        if line == "" || StrOps.starts_with line "#" then .ok g
        else if StrOps.starts_with line "@prefix" then
          if StrOps.ends_with line "." then .ok g
          else .error ("unterminated prefix block: " ++ line)
        else
          match StrOps.split_ws line with
          | s :: p :: o :: _ => .ok (g ++ [⟨.named s, .named p, .named o⟩])
          | _ => .ok g)
    (.ok [])

/-- `RDFEngine::execute_update` (bfg9k_rdf_engine.rs lines 48-58): parse the
whole input into a transient graph first; a parse failure propagates through
`?` before any store access, leaving the store as it was; on success every
graph triple is inserted into the store and the call returns `Ok(true)`. -/
def execute_update (s : Store) (ttl : String) : Except String Bool × Store :=
  match graph_read_turtle ttl with
  | .error e => (.error e, s)
  | .ok g => (.ok true, g.foldl Store.insert s)

/-- The allow-list `required_props` (bfg9k_rdf_engine.rs line 70). -/
def required_props : List String := ["rdfs:label", "rdfs:comment"]

/-- The rule-1 test at bfg9k_rdf_engine.rs lines 72-73: the predicate is a
named node whose IRI is not in the allow-list. -/
def offending (t : GTriple) : Bool :=
  match t.predicate.as_named with
  | some p => !(required_props.contains p)
  | none => false

/-- The rule-1 warning text pushed at bfg9k_rdf_engine.rs lines 74-77, naming
the subject, predicate and object of the offending triple. -/
def mk_warning (t : GTriple) : String :=
  "Warning: Triple " ++ t.subject.render ++ " " ++ t.predicate.render ++ " " ++
    t.object.render ++ " uses non-standard predicate"

/-- The rule-2 test at bfg9k_rdf_engine.rs lines 83-86: some triple has the
rdf:type predicate and the owl:Class object, both compared as written in the
source. -/
def has_classes (g : Graph) : Bool :=
  g.any (fun t =>
    ((t.predicate.as_named.map (fun p => p == "rdf:type")).getD false) &&
    ((t.object.as_named.map (fun o => o == "owl:Class")).getD false))

/-- The rule-2 error text pushed at bfg9k_rdf_engine.rs line 89. -/
def class_error : String := "Error: No owl:Class definitions found"

/-- The validation rule phase of `RDFEngine::execute_validation`
(bfg9k_rdf_engine.rs lines 66-92), applied to the graph parsed from the input:
one pass pushing a warning per triple with a non-allow-listed named predicate,
then the class-definition check appending at most one error. -/
def validate_graph (g : Graph) : List String :=
  let validation_results :=
    g.foldl (fun acc t => if offending t then acc ++ [mk_warning t] else acc) []
  if has_classes g then validation_results
  else validation_results ++ [class_error]

/-- `RDFEngine::execute_validation` (bfg9k_rdf_engine.rs lines 60-93): parse
the input into a transient graph (never merged into the store) and run the
validation rules over it; the `&self` receiver is mirrored by returning the
store unchanged. -/
def execute_validation (s : Store) (ttl : String) :
    Except String (List String) × Store :=
  match graph_read_turtle ttl with
  | .error e => (.error e, s)
  | .ok g => (.ok (validate_graph g), s)

end BFG9K

/-!
Theorems. Helper lemmas come first; each claim is then settled by one
theorem, with a closed counterexample where the claim fails on the code and a
closed witness where a proved theorem carries hypotheses.
-/

/-- The store after `execute_update`: the old triples followed by every
parsed line, in input order. The push loop of lib.rs lines 42-56 equals an
append of `filterMap` over the lines. -/
theorem hand_update_triples (e : HandRolled.RDFEngine) (ttl : String) :
    (e.execute_update ttl).2.triples =
      e.triples ++ (StrOps.lines ttl).filterMap HandRolled.parse_line := by
  have key : ∀ (l : List String) (acc : List HandRolled.Triple),
      List.foldl
        (fun acc x =>
          match HandRolled.parse_line x with
          | some t => acc ++ [t]
          | none => acc)
        acc l = acc ++ l.filterMap HandRolled.parse_line := by
    intro l
    induction l with
    | nil => intro acc; simp
    | cons x xs ih =>
      intro acc
      cases hg : HandRolled.parse_line x <;>
        simp [hg, ih, List.filterMap_cons]
  simpa [HandRolled.RDFEngine.execute_update] using
    key (StrOps.lines ttl) e.triples

/-- Claim C1, counterexample: feeding the very same line `s p o` to two
consecutive update calls leaves two structurally equal triples in the store
and grows the size from one to two, so the store is not duplicate-free and
insert is not idempotent. -/
theorem duplicate_triple_stored :
    (((HandRolled.RDFEngine.new.execute_update "s p o").2.execute_update
        "s p o").2.triples =
      [⟨"s", "p", "o"⟩, ⟨"s", "p", "o"⟩]) ∧
    (HandRolled.RDFEngine.new.execute_update "s p o").2.triples =
      [⟨"s", "p", "o"⟩] := by
  decide

/-- Claim C1, amended: in the hand-rolled engine `execute_update` appends
every parsed triple unconditionally, so a line parsing to a triple already
structurally present grows the store by one and structurally equal triples
coexist. -/
theorem update_appends_all_parsed :
    ∀ (e : HandRolled.RDFEngine) (ttl : String),
      ((e.execute_update ttl).2.triples =
        e.triples ++ (StrOps.lines ttl).filterMap HandRolled.parse_line) ∧
      (∀ t : HandRolled.Triple, StrOps.lines ttl = [ttl] →
        HandRolled.parse_line ttl = some t → t ∈ e.triples →
        (e.execute_update ttl).2.triples.length = e.triples.length + 1) := by
  intro e ttl
  refine ⟨hand_update_triples e ttl, ?_⟩
  intro t hlines hparse _
  rw [hand_update_triples e ttl, hlines]
  simp [List.filterMap_cons, hparse]

/-- Claim C5, counterexample: query text that is no pattern at all still
returns an ok result (and the unchanged engine), not a query-syntax error. -/
theorem malformed_query_returns_ok :
    (HandRolled.RDFEngine.new.execute_query "this is not ((( a query").1 =
      .ok [] ∧
    (HandRolled.RDFEngine.new.execute_query "this is not ((( a query").2 =
      HandRolled.RDFEngine.new := by
  decide

/-- Claim C5, amended: in the hand-rolled engine `execute_query` never fails
on any query text and never mutates the store. -/
theorem query_never_fails_never_mutates :
    ∀ (e : HandRolled.RDFEngine) (q : String),
      (∃ rows, (e.execute_query q).1 = Except.ok rows) ∧
      (e.execute_query q).2 = e :=
  fun _ _ => ⟨⟨_, rfl⟩, rfl⟩

/-- Claim C9: the hand-rolled `execute_query` reads its query argument
nowhere, so any two query strings give equal results on the same engine
state. -/
theorem query_result_independent_of_text :
    ∀ (e : HandRolled.RDFEngine) (q1 q2 : String),
      e.execute_query q1 = e.execute_query q2 :=
  fun _ _ _ => rfl

/-- A non-empty, non-comment line with fewer than three whitespace-separated
tokens parses to nothing. -/
theorem parse_line_short (raw : String) (h1 : StrOps.trim raw ≠ "")
    (h2 : StrOps.starts_with (StrOps.trim raw) "#" = false)
    (h3 : (StrOps.split_ws (StrOps.trim raw)).length < 3) :
    HandRolled.parse_line raw = none := by
  have hb : (StrOps.trim raw == "") = false := by
    rw [beq_eq_false_iff_ne]
    exact h1
  unfold HandRolled.parse_line
  simp only [hb, h2, Bool.or_self, Bool.false_eq_true, if_false]
  rcases hsw : StrOps.split_ws (StrOps.trim raw) with _ | ⟨a, _ | ⟨b, _ | ⟨c, rest⟩⟩⟩
  · simp
  · simp
  · simp
  · rw [hsw] at h3
    simp at h3
    omega

/-- A non-empty, non-comment line parses to the triple of its first three
whitespace-separated tokens. -/
theorem parse_line_three (raw a b c : String) (rest : List String)
    (h1 : StrOps.trim raw ≠ "")
    (h2 : StrOps.starts_with (StrOps.trim raw) "#" = false)
    (hsw : StrOps.split_ws (StrOps.trim raw) = a :: b :: c :: rest) :
    HandRolled.parse_line raw = some ⟨a, b, c⟩ := by
  have hb : (StrOps.trim raw == "") = false := by
    rw [beq_eq_false_iff_ne]
    exact h1
  unfold HandRolled.parse_line
  simp only [hb, h2, hsw, Bool.or_self, Bool.false_eq_true, if_false]

/-- Claim C10: the hand-rolled `execute_update` is total, returning
`Ok(true)` on every input; the new store is the old one followed by every
parsed line; and a non-empty, non-comment line with fewer than three tokens
is dropped silently while any other such line contributes the triple of its
first three tokens. -/
theorem update_total_first_three_tokens :
    ∀ (e : HandRolled.RDFEngine) (ttl : String),
      (e.execute_update ttl).1 = .ok true ∧
      (e.execute_update ttl).2.triples =
        e.triples ++ (StrOps.lines ttl).filterMap HandRolled.parse_line ∧
      (∀ raw : String, StrOps.trim raw ≠ "" →
        StrOps.starts_with (StrOps.trim raw) "#" = false →
        (((StrOps.split_ws (StrOps.trim raw)).length < 3 →
          HandRolled.parse_line raw = none) ∧
        (∀ (a b c : String) (rest : List String),
          StrOps.split_ws (StrOps.trim raw) = a :: b :: c :: rest →
          HandRolled.parse_line raw = some ⟨a, b, c⟩))) :=
  fun e ttl =>
    ⟨rfl, hand_update_triples e ttl,
     fun raw h1 h2 =>
      ⟨fun h3 => parse_line_short raw h1 h2 h3,
       fun a b c rest hsw => parse_line_three raw a b c rest h1 h2 hsw⟩⟩

/-- Claim C7, counterexample: the complete result of an update whose first
line is malformed. The call yields only the boolean `true` and the store with
the remaining parsed triple: no warning referencing the offending line is
recorded anywhere in the returned value or state. -/
theorem malformed_line_no_warning_recorded :
    HandRolled.RDFEngine.new.execute_update "a b\nc d e" =
      (Except.ok true, ⟨[⟨"c", "d", "e"⟩]⟩) := by
  decide

/-- Claim C7, amended: a non-empty, non-comment line with fewer than three
tokens is skipped silently (the result carries no warning, only the boolean),
and the remaining lines are still parsed and ingested. -/
theorem malformed_line_skipped :
    ∀ (e : HandRolled.RDFEngine) (ttl bad : String) (pre suf : List String),
      StrOps.lines ttl = pre ++ bad :: suf →
      StrOps.trim bad ≠ "" →
      StrOps.starts_with (StrOps.trim bad) "#" = false →
      (StrOps.split_ws (StrOps.trim bad)).length < 3 →
      (e.execute_update ttl).1 = .ok true ∧
      (e.execute_update ttl).2.triples =
        e.triples ++ (pre.filterMap HandRolled.parse_line ++
          suf.filterMap HandRolled.parse_line) := by
  intro e ttl bad pre suf hl h1 h2 h3
  refine ⟨rfl, ?_⟩
  rw [hand_update_triples, hl]
  simp [List.filterMap_append, List.filterMap_cons, parse_line_short bad h1 h2 h3]

/-- Witness for the amended claim C7 at a concrete input: the malformed line
`a b` is skipped and the well-formed line `c d e` is still ingested. -/
theorem malformed_line_skipped_witness :
    (HandRolled.RDFEngine.new.execute_update "a b\nc d e").1 = .ok true ∧
    (HandRolled.RDFEngine.new.execute_update "a b\nc d e").2.triples =
      HandRolled.RDFEngine.new.triples ++
        (([] : List String).filterMap HandRolled.parse_line ++
          ["c d e"].filterMap HandRolled.parse_line) :=
  malformed_line_skipped HandRolled.RDFEngine.new "a b\nc d e" "a b" [] ["c d e"]
    (by decide) (by decide) (by decide) (by decide)

/-- Claim C3, counterexample: on a state with no class-declaration triple in
scope the diagnostics are exactly `["No owl:Class definitions found"]`; in
particular no diagnostic carries the message `No class definitions found.`
claimed by the spec. -/
theorem no_class_error_message_differs :
    (HandRolled.RDFEngine.new.execute_validation "").1 =
      .ok ["No owl:Class definitions found"] ∧
    ¬ ("No class definitions found." ∈ ["No owl:Class definitions found"]) := by
  decide

/-- Claim C3, amended: with the message as written in the code, the rule
holds: the diagnostics equal `["No owl:Class definitions found"]` (exactly
one Error) precisely when no stored triple has the rdf:type predicate IRI
and the owl:Class object IRI, and are empty precisely when such a triple
exists. -/
theorem validation_class_rule :
    ∀ (e : HandRolled.RDFEngine) (ttl : String),
      ((e.execute_validation ttl).1 =
          .ok ["No owl:Class definitions found"] ↔
        ¬ ∃ t ∈ e.triples, t.predicate = HandRolled.rdf_type_iri ∧
          t.object = HandRolled.owl_class_iri) ∧
      ((e.execute_validation ttl).1 = .ok [] ↔
        ∃ t ∈ e.triples, t.predicate = HandRolled.rdf_type_iri ∧
          t.object = HandRolled.owl_class_iri) := by
  intro e ttl
  have key : (e.triples.any fun t =>
      t.predicate == HandRolled.rdf_type_iri &&
        t.object == HandRolled.owl_class_iri) = true ↔
      ∃ t ∈ e.triples, t.predicate = HandRolled.rdf_type_iri ∧
        t.object = HandRolled.owl_class_iri := by
    simp [List.any_eq_true]
  cases hc : (e.triples.any fun t =>
      t.predicate == HandRolled.rdf_type_iri &&
        t.object == HandRolled.owl_class_iri) with
  | false =>
    rw [hc] at key
    simp only [Bool.false_eq_true, false_iff] at key
    have hres : (e.execute_validation ttl).1 =
        .ok ["No owl:Class definitions found"] := by
      simp [HandRolled.RDFEngine.execute_validation, hc]
    rw [hres]
    constructor
    · simp [key]
    · constructor
      · intro h
        simp at h
      · intro hex
        exact absurd hex key
  | true =>
    rw [hc] at key
    simp only [true_iff] at key
    have hres : (e.execute_validation ttl).1 = .ok [] := by
      simp [HandRolled.RDFEngine.execute_validation, hc]
    rw [hres]
    constructor
    · constructor
      · intro h
        simp at h
      · intro hneg
        exact absurd key hneg
    · simp [key]

/-- Claim C2: evaluation at the failing input. A fresh engine is asked to
validate a source text whose single line is a class declaration (predicate =
the rdf:type IRI, object = the owl:Class IRI, as the line parser of this very
module reads it), yet the call reports the no-class error: the code ignores
`source_text` and computes the diagnostics from the persistent store, while
the spec and the module's own unit test require them to come from the parsed
source text. -/
theorem validation_ignores_source_text :
    ((HandRolled.RDFEngine.new.execute_validation
        ("a " ++ HandRolled.rdf_type_iri ++ " " ++ HandRolled.owl_class_iri)).1 =
      .ok ["No owl:Class definitions found"]) ∧
    (((StrOps.lines
          ("a " ++ HandRolled.rdf_type_iri ++ " " ++
            HandRolled.owl_class_iri)).filterMap
        HandRolled.parse_line).any
      (fun t => t.predicate == HandRolled.rdf_type_iri &&
        t.object == HandRolled.owl_class_iri)) = true := by
  decide

/-- Claim C8: the predicate-filtered lookup is exactly the subsequence of the
full insertion-order iteration whose triples carry the asked predicate: it is
a subsequence of the store, every triple of it matches, any matching
subsequence of the store is a subsequence of it, and `execute_query` emits
one row per triple of the rdf:type lookup, in that order. -/
theorem by_predicate_exact_subsequence :
    ∀ (e : HandRolled.RDFEngine) (p q : String),
      List.Sublist (HandRolled.by_predicate e p) e.triples ∧
      (∀ t ∈ HandRolled.by_predicate e p, t.predicate = p) ∧
      (∀ l : List HandRolled.Triple, List.Sublist l e.triples →
        (∀ t ∈ l, t.predicate = p) →
        List.Sublist l (HandRolled.by_predicate e p)) ∧
      (e.execute_query q).1 =
        .ok ((HandRolled.by_predicate e HandRolled.rdf_type_iri).map
          (fun t => HandRolled.QueryRow.mk t.subject t.object)) := by
  intro e p q
  refine ⟨List.filter_sublist e.triples, ?_, ?_, rfl⟩
  · intro t ht
    have h := (List.mem_filter.mp ht).2
    simpa using h
  · intro l hsub hall
    have hfix : l.filter (fun t => t.predicate == p) = l :=
      List.filter_eq_self.mpr (fun a ha => by simpa using hall a ha)
    have := List.Sublist.filter (fun t => t.predicate == p) hsub
    rw [hfix] at this
    exact this

/-- Witness for claim C8 at a concrete store: the maximality clause applied
to a strict matching subsequence of a three-triple store. -/
theorem by_predicate_exact_subsequence_witness :
    List.Sublist [(⟨"e", "p1", "f"⟩ : HandRolled.Triple)]
      (HandRolled.by_predicate
        ⟨[⟨"a", "p1", "b"⟩, ⟨"c", "p2", "d"⟩, ⟨"e", "p1", "f"⟩]⟩ "p1") :=
  (by_predicate_exact_subsequence
      ⟨[⟨"a", "p1", "b"⟩, ⟨"c", "p2", "d"⟩, ⟨"e", "p1", "f"⟩]⟩ "p1" "q").2.2.1
    [⟨"e", "p1", "f"⟩] (by decide) (by decide)

/-- Claim C4: the diagnostics of the oxigraph-variant validator decompose as
the rule-1 warnings, one per triple whose predicate is a named node outside
the allow-list, each naming the subject, predicate and object of its triple
and in graph order, followed by the rule-2 error when no class declaration
exists; and the rule-1 test fires exactly on named predicates outside the
allow-list. -/
theorem bfg9k_validation_order :
    ∀ g : BFG9K.Graph,
      BFG9K.validate_graph g =
        ((g.filter fun t => BFG9K.offending t).map BFG9K.mk_warning) ++
          (if BFG9K.has_classes g then [] else [BFG9K.class_error]) ∧
      (∀ t : BFG9K.GTriple, BFG9K.offending t = true ↔
        ∃ p, t.predicate.as_named = some p ∧ p ∉ BFG9K.required_props) := by
  intro g
  constructor
  · have key : ∀ (l : BFG9K.Graph) (acc : List String),
        List.foldl
          (fun acc t =>
            if BFG9K.offending t then acc ++ [BFG9K.mk_warning t] else acc)
          acc l =
          acc ++ (l.filter fun t => BFG9K.offending t).map BFG9K.mk_warning := by
      intro l
      induction l with
      | nil => intro acc; simp
      | cons x xs ih =>
        intro acc
        cases ho : BFG9K.offending x <;>
          simp [List.filter_cons, ho, ih]
    unfold BFG9K.validate_graph
    cases hcl : BFG9K.has_classes g <;> simp [key, hcl]
  · intro t
    cases hp : t.predicate with
    | named iri =>
      simp [BFG9K.offending, hp, BFG9K.GTerm.as_named, List.elem_iff]
    | blank id =>
      simp [BFG9K.offending, hp, BFG9K.GTerm.as_named]
    | lit v =>
      simp [BFG9K.offending, hp, BFG9K.GTerm.as_named]

/-- Claim C6: the oxigraph-variant update parses the whole input before
touching the store, so a failed update leaves the store exactly as it was. -/
theorem bfg9k_update_atomic :
    ∀ (s : BFG9K.Store) (ttl err : String),
      (BFG9K.execute_update s ttl).1 = .error err →
      (BFG9K.execute_update s ttl).2 = s := by
  intro s ttl err h
  unfold BFG9K.execute_update at h ⊢
  cases hp : BFG9K.graph_read_turtle ttl with
  | error e => rfl
  | ok g =>
    rw [hp] at h
    exact Except.noConfusion
      (show (Except.ok true : Except String Bool) = Except.error err from h)

/-- Witness for claim C6 at a concrete failing input: an unterminated prefix
declaration aborts the update and the empty store stays empty. -/
theorem bfg9k_update_atomic_witness :
    (BFG9K.execute_update ⟨[]⟩ "@prefix p: <x>").2 = (⟨[]⟩ : BFG9K.Store) :=
  bfg9k_update_atomic ⟨[]⟩ "@prefix p: <x>"
    "unterminated prefix block: @prefix p: <x>" (by decide)
